import Mathlib

/-!
Verification development for the OpenCL BiCGSTAB solver backend of
opm-simulators (src/opm/simulators/linalg/bda/opencl/openclSolverBackend.cpp).

The orchestrator code is embedded shallowly:

* Device vectors are lists of rationals (`Vec`); exact rational arithmetic
  replaces IEEE doubles, so the algebraic recurrences are stated exactly.
* The device kernels (dot, norm, axpy, spmv, the fused recombine kernel) live
  in openclKernels.cpp, which is not part of the sources under review; they
  are modelled from the spec, section 4.4.  The Euclidean norm is represented
  by its square `normSq` and the convergence test `norm < tolerance * norm0`
  by the equivalent squared test `normSq r < tol2 * normSq r0` with
  `tol2 = tolerance^2` (equivalent for a nonnegative tolerance since both
  sides of the original test are nonnegative).
* The sparse matrix-vector product, the preconditioner application and the
  well-contribution product are abstract functions `A`, `P`, `W` on vectors:
  the orchestrator only sequences calls to them.
* The iteration counter `it` of the C++ loop runs over 0.5, 1.0, 1.5, ...;
  it is represented in half-step units as a natural number `it2 = 2 * it`,
  so the loop condition `it < maxit` becomes `it2 < 2 * maxit` and the guard
  `it > 1` becomes `2 < it2`.
* Every device operation issued by gpu_pbicgstab is also recorded in an
  event trace (`Ev`), used to state the ordering of spmv and
  well-contribution kernels.
-/

abbrev Vec := List ℚ

/-- Modelled from the spec: the device dot kernel of section 4.4,
`dot(a,b) -> scalar` (openclKernels.cpp is not among the sources). -/
def vdot (a b : Vec) : ℚ := (List.zipWith (fun x y => x * y) a b).sum

/-- Squared Euclidean norm; stands for the square of the norm kernel of
section 4.4. -/
def normSq (a : Vec) : ℚ := vdot a a

/-- Modelled from the spec: the axpy kernel of section 4.4,
`axpy(a, scale, b)` performs `b += scale * a` in place. -/
def axpy (a : Vec) (s : ℚ) (b : Vec) : Vec :=
  List.zipWith (fun ai bi => bi + s * ai) a b

/-- Pointwise vector sum. -/
def vadd (a b : Vec) : Vec := List.zipWith (fun x y => x + y) a b

/-- Pointwise vector difference. -/
def vsub (a b : Vec) : Vec := List.zipWith (fun x y => x - y) a b

/-- Scalar times vector. -/
def vsmul (c : ℚ) (v : Vec) : Vec := List.map (fun x => c * x) v

/-- Modelled from the spec: the fused recombine kernel of section 4.4,
`custom(p, v, r, omega, beta)` computes `p = r + beta * (p - omega * v)`
in one pass (openclKernels.cpp is not among the sources). -/
def customK (p v r : Vec) (om be : ℚ) : Vec :=
  List.zipWith (fun ri pvi => ri + be * pvi) r
    (List.zipWith (fun pi vi => pi - om * vi) p v)

/-- The all-zero vector of length n (an enqueueFillBuffer with zeros). -/
def zeroVec (n : ℕ) : Vec := List.replicate n 0

/-- Device buffers named in gpu_pbicgstab. -/
inductive Buf
  | x | b | r | rw | p | pw | s | t | v
deriving DecidableEq, Repr

/-- Device operations issued by gpu_pbicgstab, in program order. -/
inductive Ev
  | fill (dst : Buf)
  | copy (src dst : Buf)
  | dotE (a b : Buf)
  | normE (a : Buf)
  | axpyE (a b : Buf)
  | customE
  | precE (src dst : Buf)
  | spmvE (src dst : Buf)
  | wellE (src dst : Buf)
deriving DecidableEq, Repr

/-- Abstract parameters of one solve: the device operators and the solver
configuration.  `A` is the uploaded sparse matrix acting by spmv, `P` the
preconditioner application, `W` the well-contribution product added after
each spmv, `numWells` the well count guarding that addition, `maxit` the
iteration bound and `tol2` the squared relative tolerance. -/
structure Params where
  A : Vec → Vec
  P : Vec → Vec
  W : Vec → Vec
  numWells : ℕ
  maxit : ℕ
  tol2 : ℚ

/-- The mutable scalar and vector state of the BiCGSTAB loop.  `nrmSq` is
the square of the local variable `norm` (the most recently computed
residual norm). -/
structure BState where
  x : Vec
  r : Vec
  rw : Vec
  p : Vec
  v : Vec
  rho : ℚ
  alpha : ℚ
  omega : ℚ
  nrmSq : ℚ
deriving DecidableEq, Repr

/-- First half-step of the loop body (openclSolverBackend.cpp lines
284-315): rho = dot(rw, r); if it > 1, recombine p with the fused kernel
using beta = (rho/rhop) * (alpha/omega); pw = prec(p); v = A * pw; add the
well contributions into v when wells are present; alpha = rho / dot(rw, v);
r -= alpha * v; x += alpha * pw; recompute the norm of r.  Returns the new
state together with the device events issued. -/
def half1 (pr : Params) (it2 : ℕ) (st : BState) : BState × List Ev :=
  let rho := vdot st.rw st.r
  let pc := if 2 < it2 then
      customK st.p st.v st.r st.omega ((rho / st.rho) * (st.alpha / st.omega))
    else st.p
  let ev1 : List Ev := if 2 < it2 then
      [Ev.dotE Buf.rw Buf.r, Ev.customE]
    else [Ev.dotE Buf.rw Buf.r]
  let pw := pr.P pc
  let v1 := pr.A pw
  let v2 := if 0 < pr.numWells then vadd v1 (pr.W pw) else v1
  let ev2 : List Ev := if 0 < pr.numWells then
      [Ev.precE Buf.p Buf.pw, Ev.spmvE Buf.pw Buf.v, Ev.wellE Buf.pw Buf.v]
    else [Ev.precE Buf.p Buf.pw, Ev.spmvE Buf.pw Buf.v]
  let al := rho / vdot st.rw v2
  let r2 := axpy v2 (-al) st.r
  let x2 := axpy pw al st.x
  (⟨x2, r2, st.rw, pc, v2, rho, al, st.omega, normSq r2⟩,
   ev1 ++ ev2 ++
     [Ev.dotE Buf.rw Buf.v, Ev.axpyE Buf.v Buf.r, Ev.axpyE Buf.pw Buf.x,
      Ev.normE Buf.r])

/-- Second half-step of the loop body (lines 324-347): s = prec(r);
t = A * s; add the well contributions into t when wells are present;
omega = dot(t, r) / dot(t, t); x += omega * s; r -= omega * t; recompute
the norm of r. -/
def half2 (pr : Params) (st : BState) : BState × List Ev :=
  let s := pr.P st.r
  let t1 := pr.A s
  let t2 := if 0 < pr.numWells then vadd t1 (pr.W s) else t1
  let ev : List Ev := if 0 < pr.numWells then
      [Ev.precE Buf.r Buf.s, Ev.spmvE Buf.s Buf.t, Ev.wellE Buf.s Buf.t]
    else [Ev.precE Buf.r Buf.s, Ev.spmvE Buf.s Buf.t]
  let om := vdot t2 st.r / vdot t2 t2
  let x2 := axpy s om st.x
  let r2 := axpy t2 (-om) st.r
  (⟨x2, r2, st.rw, st.p, st.v, st.rho, st.alpha, om, normSq r2⟩,
   ev ++
     [Ev.dotE Buf.t Buf.r, Ev.dotE Buf.t Buf.t, Ev.axpyE Buf.s Buf.x,
      Ev.axpyE Buf.t Buf.r, Ev.normE Buf.r])

/-- Result of running the iteration loop: the final value of the half-step
counter, the final state, the list of residual-norm values that were tested
against the tolerance (in order), and the trace of device events. -/
structure LoopOut where
  it2 : ℕ
  st : BState
  tests : List ℚ
  trace : List Ev
deriving DecidableEq, Repr

/-- The for-loop of gpu_pbicgstab (lines 283-359) in half-step units:
while `it2 < 2 * maxit`, run the first half-step, test
`norm < tolerance * norm0` (in squared form against `tol2 * n0` where
`n0 = normSq r0`), break on success; otherwise advance the counter by one
half-step, run the second half-step, test again, break on success;
otherwise advance again and repeat. -/
def bicgLoop (pr : Params) (n0 : ℚ) (it2 : ℕ) (st : BState) : LoopOut :=
  if h : it2 < 2 * pr.maxit then
    let h1 := half1 pr it2 st
    if h1.1.nrmSq < pr.tol2 * n0 then
      ⟨it2, h1.1, [h1.1.nrmSq], h1.2⟩
    else
      let h2 := half2 pr h1.1
      if h2.1.nrmSq < pr.tol2 * n0 then
        ⟨it2 + 1, h2.1, [h1.1.nrmSq, h2.1.nrmSq], h1.2 ++ h2.2⟩
      else
        let o := bicgLoop pr n0 (it2 + 2) h2.1
        ⟨o.it2, o.st, h1.1.nrmSq :: h2.1.nrmSq :: o.tests,
         h1.2 ++ h2.2 ++ o.trace⟩
  else ⟨it2, st, [], []⟩
termination_by 2 * pr.maxit - it2
decreasing_by omega

/-- The state prepared before the loop (lines 255-274): p and v are filled
with zeros, then r is a copy of b, and rw and p are copies of r (so the
zero fill of p is overwritten and p = r = b); rho = alpha = omega = 1; the
initial norm of r is taken as norm0.  The solution buffer x is whatever the
caller uploaded (`x0`); no product A * x is subtracted from r. -/
def bicgInit (x0 b : Vec) : BState :=
  ⟨x0, b, b, b, zeroVec b.length, 1, 1, 1, normSq b⟩

/-- The device events issued before the loop (lines 256-273). -/
def prologueEvs : List Ev :=
  [Ev.fill Buf.p, Ev.fill Buf.v, Ev.copy Buf.b Buf.r, Ev.copy Buf.r Buf.rw,
   Ev.copy Buf.r Buf.p, Ev.normE Buf.r]

/-- The fields of BdaResult that the claims mention, with the iteration
count in half-step units: `iterations2 = 2 * res.iterations`. -/
structure BdaResult where
  iterations2 : ℕ
  converged : Bool
deriving DecidableEq, Repr

/-- Output of gpu_pbicgstab: the reported result, the raw loop output and
the full device-event trace. -/
structure GpuOut where
  res : BdaResult
  out : LoopOut
  trace : List Ev
deriving DecidableEq, Repr

/-- gpu_pbicgstab (lines 243-382): initialize the state from the uploaded
x and b buffers, run the loop from it = 0.5 (it2 = 1), then report
`iterations = min it maxit` and `converged = (it != maxit + 0.5)`, which in
half-step units read `min it2 (2 * maxit)` and `it2 != 2 * maxit + 1`. -/
def gpu_pbicgstab (pr : Params) (x0 b : Vec) : GpuOut :=
  let o := bicgLoop pr (normSq b) 1 (bicgInit x0 b)
  ⟨⟨min o.it2 (2 * pr.maxit), o.it2 != 2 * pr.maxit + 1⟩, o,
   prologueEvs ++ o.trace⟩

/-!
Side-by-side model written from the words of the spec, section 4.6
(the BiCGSTAB pseudocode block).  Used only to compare against the
embedding of the source; the vector updates are written with plain vector
algebra exactly as the pseudocode prints them.
-/

/-- From the spec pseudocode: rho_prev = rho; rho = dot(rw, r); if it > 1,
beta = (rho/rho_prev) * (alpha/omega) and p = r + beta * (p - omega * v);
pw = Precond.apply(p); v = A * pw plus well contributions;
alpha = rho / dot(rw, v); r -= alpha * v; x += alpha * pw. -/
def specHalf1 (pr : Params) (it2 : ℕ) (st : BState) : BState :=
  let rho := vdot st.rw st.r
  let pc := if 2 < it2 then
      vadd st.r (vsmul ((rho / st.rho) * (st.alpha / st.omega))
        (vsub st.p (vsmul st.omega st.v)))
    else st.p
  let pw := pr.P pc
  let v1 := pr.A pw
  let v2 := if 0 < pr.numWells then vadd v1 (pr.W pw) else v1
  let al := rho / vdot st.rw v2
  ⟨vadd st.x (vsmul al pw), vsub st.r (vsmul al v2), st.rw, pc, v2, rho, al,
   st.omega, normSq (vsub st.r (vsmul al v2))⟩

/-- From the spec pseudocode: s = Precond.apply(r); t = A * s plus well
contributions; omega = dot(t, r) / dot(t, t); x += omega * s;
r -= omega * t. -/
def specHalf2 (pr : Params) (st : BState) : BState :=
  let s := pr.P st.r
  let t1 := pr.A s
  let t2 := if 0 < pr.numWells then vadd t1 (pr.W s) else t1
  let om := vdot t2 st.r / vdot t2 t2
  ⟨vadd st.x (vsmul om s), vsub st.r (vsmul om t2), st.rw, st.p, st.v,
   st.rho, st.alpha, om, normSq (vsub st.r (vsmul om t2))⟩

/-- From the spec pseudocode: repeat the two half-steps until it >= maxit,
stopping as soon as a tested norm satisfies the tolerance test. -/
def specLoop (pr : Params) (n0 : ℚ) (it2 : ℕ) (st : BState) : ℕ × BState :=
  if h : it2 < 2 * pr.maxit then
    let s1 := specHalf1 pr it2 st
    if s1.nrmSq < pr.tol2 * n0 then (it2, s1)
    else
      let s2 := specHalf2 pr s1
      if s2.nrmSq < pr.tol2 * n0 then (it2 + 1, s2)
      else specLoop pr n0 (it2 + 2) s2
  else (it2, st)
termination_by 2 * pr.maxit - it2
decreasing_by omega

/-- From the spec pseudocode: r = b (x starts at the caller-supplied
buffer, no residual update is applied); rw = r; p = r;
rho = alpha = omega = 1; norm0 = norm of r; then run the loop from
it = 0.5. -/
def specPbicgstab (pr : Params) (x0 b : Vec) : ℕ × BState :=
  specLoop pr (normSq b) 1 (bicgInit x0 b)

/-!
Trace checker for the spmv / well-contribution ordering (claim about
section 4.5): every well event must be immediately preceded by the spmv
event with the same source and destination buffers, and, when wells are
present, every spmv event must be immediately followed by the matching
well event; in particular no other device operation is issued between the
two.
-/

/-- A well event is legal only right after the matching spmv event. -/
def isWellAfterOK (prev : Option Ev) (cur : Ev) : Bool :=
  match cur with
  | Ev.wellE a b => decide (prev = some (Ev.spmvE a b))
  | _ => true

/-- Right after an spmv event, when wells are present, only the matching
well event may be issued. -/
def isSpmvBeforeOK (nw : ℕ) (prev : Option Ev) (cur : Ev) : Bool :=
  match prev with
  | some (Ev.spmvE a b) => decide (nw = 0) || decide (cur = Ev.wellE a b)
  | _ => true

/-- At the end of the trace no spmv event may be left without its well
event (when wells are present). -/
def spmvPendingOK (nw : ℕ) (prev : Option Ev) : Bool :=
  match prev with
  | some (Ev.spmvE _ _) => decide (nw = 0)
  | _ => true

/-- Walk the trace carrying the previous event and check the adjacency
conditions at every position. -/
def stepOK (nw : ℕ) : Option Ev → List Ev → Bool
  | prev, [] => spmvPendingOK nw prev
  | prev, e :: rest =>
      isWellAfterOK prev e && isSpmvBeforeOK nw prev e && stepOK nw (some e) rest

/-- Spmv and well events only ever name the buffer pairs pw/v (first
half-step) and s/t (second half-step). -/
def evBufOK : Ev → Bool
  | Ev.spmvE a b =>
      decide ((a = Buf.pw ∧ b = Buf.v) ∨ (a = Buf.s ∧ b = Buf.t))
  | Ev.wellE a b =>
      decide ((a = Buf.pw ∧ b = Buf.v) ∨ (a = Buf.s ∧ b = Buf.t))
  | _ => true

/-!
Constructor model (lines 50-219).  The linsolver string is dispatched
before the try block that talks to OpenCL; the try block enumerates
platforms, selects one, enumerates devices, selects one, creates the
context, the queue and the kernels, and converts any cl::Error into a
structured logic_error carrying the code and getErrorString(code).
C++ exceptions become Except.error values; the second component lists the
OpenCL phases that were actually entered.
-/

/-- The preconditioner variants created by the constructor. -/
inductive PrecVariant
  | bilu0 | cpr | bisai
deriving DecidableEq, Repr

/-- The structured failures the constructor can raise. -/
inductive CtorErr
  | cprTrueImpesUnsupported
  | unknownLinsolver (s : String)
  | noPlatforms
  | platformIdTooHigh
  | noDevices
  | deviceIdTooHigh
  | clError (code : Int) (msg : String)
deriving DecidableEq, Repr

/-- OpenCL phases of the constructor, in program order. -/
inductive CtorEv
  | enumPlatforms
  | getDevices
  | createContext
  | createQueue
  | initKernels
deriving DecidableEq, Repr

/-- The environment the constructor runs against: how many platforms the
OpenCL runtime reports, how many devices the chosen platform reports,
whether some OpenCL call raises cl::Error (with its code), and the
getErrorString mapping used to render codes.  getErrorString lives outside
the sources; it is kept abstract. -/
structure ClEnv where
  numPlatforms : ℕ
  numDevices : ℕ
  clThrow : Option Int
  getErrorString : Int → String

/-- The linsolver dispatch at the top of the constructor (lines 54-76):
"ilu0", "cpr_quasiimpes" and "isai" select a preconditioner variant,
"cpr_trueimpes" is recognized but rejected, and anything else is rejected
with a message naming the offending value. -/
def selectPreconditioner (linsolver : String) : Except CtorErr PrecVariant :=
  if linsolver = "ilu0" then Except.ok PrecVariant.bilu0
  else if linsolver = "cpr_quasiimpes" then Except.ok PrecVariant.cpr
  else if linsolver = "isai" then Except.ok PrecVariant.bisai
  else if linsolver = "cpr_trueimpes" then
    Except.error CtorErr.cprTrueImpesUnsupported
  else Except.error (CtorErr.unknownLinsolver linsolver)

/-- The constructor (lines 50-219): dispatch the linsolver string, then in
the try block enumerate platforms (throw if none, throw if platformID is
out of range), enumerate devices on the chosen platform (throw if none,
throw if deviceID is out of range), then create context, queue and kernels,
rethrowing any cl::Error as a structured error carrying the code and its
getErrorString rendering. -/
def openclSolverBackendCtor (linsolver : String) (platformID deviceID : ℕ)
    (env : ClEnv) : Except CtorErr PrecVariant × List CtorEv :=
  match selectPreconditioner linsolver with
  | Except.error e => (Except.error e, [])
  | Except.ok prec =>
    if env.numPlatforms = 0 then
      (Except.error CtorErr.noPlatforms, [CtorEv.enumPlatforms])
    else if env.numPlatforms ≤ platformID then
      (Except.error CtorErr.platformIdTooHigh, [CtorEv.enumPlatforms])
    else if env.numDevices = 0 then
      (Except.error CtorErr.noDevices,
       [CtorEv.enumPlatforms, CtorEv.getDevices])
    else if env.numDevices ≤ deviceID then
      (Except.error CtorErr.deviceIdTooHigh,
       [CtorEv.enumPlatforms, CtorEv.getDevices])
    else
      match env.clThrow with
      | some code =>
          (Except.error (CtorErr.clError code (env.getErrorString code)),
           [CtorEv.enumPlatforms, CtorEv.getDevices, CtorEv.createContext,
            CtorEv.createQueue, CtorEv.initKernels])
      | none =>
          (Except.ok prec,
           [CtorEv.enumPlatforms, CtorEv.getDevices, CtorEv.createContext,
            CtorEv.createQueue, CtorEv.initKernels])

/-!
Orchestrator state machine: the two-argument solve_system overload
(lines 641-664) together with initialize (386-442), analyze_matrix
(527-554), update_system (557-575), create_preconditioner (578-590) and
the device uploads copy_system_to_gpu (453-489) / update_system_on_gpu
(493-523), both of which write the (possibly reordered) right-hand side
into d_b and fill d_x with zeros.  The preconditioner calls live in
classes outside the sources; their success is abstracted into the two
Booleans `analyzeOK` and `createOK`.
-/

/-- Solve-level configuration: the loop parameters, whether a reordering is
active, the host-side permutation application used by update_system
(abstract, representing reorderBlockedVectorByPattern with fromOrder), and
the outcomes of the preconditioner analysis and build. -/
structure Cfg where
  pr : Params
  reorder : Bool
  permApply : Vec → Vec
  analyzeOK : Bool
  createOK : Bool

/-- The persistent flags and device buffers of one solver instance. -/
structure SolverState where
  initialized : Bool
  analysis_done : Bool
  d_x : Vec
  d_b : Vec
deriving DecidableEq, Repr

/-- The typed statuses returned by solve_system. -/
inductive SolverStatus
  | analysisFailed
  | createPrecondFailed
  | success
deriving DecidableEq, Repr

/-- Everything observable about one solve_system call: the status, the
instance state afterwards, whether analyze_matrix and gpu_pbicgstab ran,
the x and b buffers at the moment gpu_pbicgstab started, and its output. -/
structure SolveOut where
  status : SolverStatus
  final : SolverState
  analyzeCalled : Bool
  gpuCalled : Bool
  xAtGpu : Option Vec
  bAtGpu : Option Vec
  result : Option GpuOut

/-- update_system (lines 557-575): when a reordering is active the host
right-hand side is permuted into device layout (rb), otherwise the rhs
pointer is used directly. -/
def update_system_rb (cfg : Cfg) (b : Vec) : Vec :=
  if cfg.reorder then cfg.permApply b else b

/-- The common tail of both branches of solve_system: update_system, then
create_preconditioner (abstracted by createOK), then the device upload
(copy_system_to_gpu on the first call, update_system_on_gpu on later
calls; both write rb into d_b and fill d_x with zeros, lines 471-472 and
509-510), then gpu_pbicgstab. -/
def solveTail (cfg : Cfg) (n : ℕ) (σ : SolverState) (b : Vec)
    (ac : Bool) : SolveOut :=
  let rb := update_system_rb cfg b
  if cfg.createOK = false then
    ⟨SolverStatus.createPrecondFailed, σ, ac, false, none, none, none⟩
  else
    let σ3 : SolverState :=
      ⟨σ.initialized, σ.analysis_done, zeroVec n, rb⟩
    let g := gpu_pbicgstab cfg.pr σ3.d_x σ3.d_b
    ⟨SolverStatus.success, σ3, ac, true, some σ3.d_x, some σ3.d_b, some g⟩

/-- solve_system (lines 641-664): on the first call, initialize sets the
initialized flag (line 441), then analyze_matrix runs if analysis was not
yet done, setting analysis_done (line 551) before reporting its success;
a failed analysis returns BDA_SOLVER_ANALYSIS_FAILED.  Otherwise both
branches update the system, rebuild the preconditioner (failure returning
BDA_SOLVER_CREATE_PRECONDITIONER_FAILED), upload, iterate, and return
BDA_SOLVER_SUCCESS. -/
def solve_system (cfg : Cfg) (n : ℕ) (σ : SolverState) (b : Vec) : SolveOut :=
  if σ.initialized = false then
    let σ1 : SolverState := ⟨true, σ.analysis_done, σ.d_x, σ.d_b⟩
    if σ1.analysis_done = false then
      let σ2 : SolverState := ⟨true, true, σ1.d_x, σ1.d_b⟩
      if cfg.analyzeOK = false then
        ⟨SolverStatus.analysisFailed, σ2, true, false, none, none, none⟩
      else solveTail cfg n σ2 b true
    else solveTail cfg n σ1 b false
  else solveTail cfg n σ b false

/-!
Reordering model for update_system and get_result (lines 557-575 and
622-638).  reorderBlockedVectorByPattern and the permutation pair live in
Reorder.cpp and the preconditioner classes, which are not among the
sources; they are modelled from the spec, sections 3 and 4.2: toOrder and
fromOrder are inverse bijections on block indices, and applying a pattern
scatters block i of the input to block pattern(i) of the output.
-/

/-- Block vectors: Nb blocks of bs entries each. -/
def BlockVec (Nb bs : ℕ) := Fin Nb → Fin bs → ℚ

/-- Modelled from the spec: reorderBlockedVectorByPattern (Reorder.cpp,
not among the sources) scatters block i of the input to block pattern(i)
of the output, i.e. out(pattern i) = in(i). -/
def reorderBlockedVectorByPattern {Nb bs : ℕ} (pattern : Equiv.Perm (Fin Nb))
    (v : BlockVec Nb bs) : BlockVec Nb bs :=
  fun j => v (pattern.symm j)

/-- update_system at the block level (lines 561-568): with a reordering
active the rhs is permuted by the fromOrder pattern into rb, otherwise the
rhs pointer is used directly. -/
def update_system_block {Nb bs : ℕ} (reorder : Bool)
    (fromOrder : Equiv.Perm (Fin Nb)) (b : BlockVec Nb bs) :
    BlockVec Nb bs :=
  if reorder then reorderBlockedVectorByPattern fromOrder b else b

/-- get_result (lines 622-638): with a reordering active the device
solution is read back and un-permuted by the toOrder pattern, otherwise it
is read straight into the output array. -/
def get_result {Nb bs : ℕ} (reorder : Bool)
    (toOrder : Equiv.Perm (Fin Nb)) (dx : BlockVec Nb bs) :
    BlockVec Nb bs :=
  if reorder then reorderBlockedVectorByPattern toOrder dx else dx

/-!  Helper lemmas about the vector primitives.  -/

theorem normSq_nonneg (v : Vec) : 0 ≤ normSq v := by
  induction v with
  | nil => simp [normSq, vdot]
  | cons a t ih =>
      have h : normSq (a :: t) = a * a + normSq t := rfl
      rw [h]
      exact add_nonneg (mul_self_nonneg a) ih

theorem normSq_zeroVec (n : ℕ) : normSq (zeroVec n) = 0 := by
  induction n with
  | zero => rfl
  | succ k ih =>
      have h : zeroVec (k + 1) = 0 :: zeroVec k := rfl
      have h2 : normSq (0 :: zeroVec k) = 0 * 0 + normSq (zeroVec k) := rfl
      rw [h, h2, ih]
      ring

theorem axpy_eq (a : Vec) (s : ℚ) (b : Vec) : axpy a s b = vadd b (vsmul s a) := by
  induction a generalizing b with
  | nil => simp [axpy, vadd, vsmul]
  | cons x xs ih =>
      cases b with
      | nil => rfl
      | cons y ys =>
          show (y + s * x) :: axpy xs s ys = (y + s * x) :: vadd ys (vsmul s xs)
          rw [ih ys]

theorem vsub_vsmul (a : Vec) (s : ℚ) (b : Vec) :
    vsub b (vsmul s a) = vadd b (vsmul (-s) a) := by
  induction a generalizing b with
  | nil => simp [vsub, vadd, vsmul]
  | cons x xs ih =>
      cases b with
      | nil => rfl
      | cons y ys =>
          show (y - s * x) :: vsub ys (vsmul s xs) =
            (y + -s * x) :: vadd ys (vsmul (-s) xs)
          rw [ih ys]
          have h : y - s * x = y + -s * x := by ring
          rw [h]

theorem customK_eq (p v r : Vec) (om be : ℚ) :
    customK p v r om be = vadd r (vsmul be (vsub p (vsmul om v))) := by
  induction p generalizing v r with
  | nil => simp [customK, vadd, vsub, vsmul]
  | cons x xs ih =>
      cases v with
      | nil => cases r <;> rfl
      | cons y ys =>
          cases r with
          | nil => rfl
          | cons z zs =>
              show (z + be * (x - om * y)) :: customK xs ys zs om be =
                (z + be * (x - om * y)) :: vadd zs (vsmul be (vsub xs (vsmul om ys)))
              rw [ih ys zs]

/-!  The embedded loop body agrees with the loop body written from the
spec pseudocode.  -/

theorem half1_fst (pr : Params) (it2 : ℕ) (st : BState) :
    (half1 pr it2 st).1 = specHalf1 pr it2 st := by
  simp only [half1, specHalf1, customK_eq, axpy_eq, vsub_vsmul]

theorem half2_fst (pr : Params) (st : BState) :
    (half2 pr st).1 = specHalf2 pr st := by
  simp only [half1, specHalf2, half2, axpy_eq, vsub_vsmul]

theorem loop_agree (pr : Params) (n0 : ℚ) :
    ∀ (k it2 : ℕ) (st : BState), 2 * pr.maxit ≤ it2 + k →
    ((bicgLoop pr n0 it2 st).it2, (bicgLoop pr n0 it2 st).st) =
      specLoop pr n0 it2 st := by
  intro k
  induction k with
  | zero =>
      intro it2 st h
      unfold bicgLoop specLoop
      rw [dif_neg (by omega), dif_neg (by omega)]
  | succ k ih =>
      intro it2 st h
      by_cases hc : it2 < 2 * pr.maxit
      · unfold bicgLoop specLoop
        rw [dif_pos hc, dif_pos hc]
        simp only [half1_fst, half2_fst]
        by_cases h1 : (specHalf1 pr it2 st).nrmSq < pr.tol2 * n0
        · rw [if_pos h1, if_pos h1]
        · rw [if_neg h1, if_neg h1]
          by_cases h2 : (specHalf2 pr (specHalf1 pr it2 st)).nrmSq < pr.tol2 * n0
          · rw [if_pos h2, if_pos h2]
          · rw [if_neg h2, if_neg h2]
            exact ih (it2 + 2) _ (by omega)
      · unfold bicgLoop specLoop
        rw [dif_neg hc, dif_neg hc]

/-!  Shape of the loop output: either the loop exhausted the iteration
budget with every tested norm failing the tolerance test, or it broke at
some half-step whose tested norm passed.  -/

theorem half1_nrmSq_nonneg (pr : Params) (it2 : ℕ) (st : BState) :
    0 ≤ (half1 pr it2 st).1.nrmSq := by
  simp only [half1]
  exact normSq_nonneg _

theorem half2_nrmSq_nonneg (pr : Params) (st : BState) :
    0 ≤ (half2 pr st).1.nrmSq := by
  simp only [half2]
  exact normSq_nonneg _

theorem loop_cases (pr : Params) (n0 : ℚ) :
    ∀ (k it2 : ℕ) (st : BState), 2 * pr.maxit ≤ it2 + k →
    it2 % 2 = 1 → it2 ≤ 2 * pr.maxit + 1 →
    ((bicgLoop pr n0 it2 st).it2 = 2 * pr.maxit + 1 ∧
      ∀ q ∈ (bicgLoop pr n0 it2 st).tests, ¬ q < pr.tol2 * n0) ∨
    ((bicgLoop pr n0 it2 st).it2 ≤ 2 * pr.maxit ∧
      (bicgLoop pr n0 it2 st).st.nrmSq < pr.tol2 * n0 ∧
      ∃ q ∈ (bicgLoop pr n0 it2 st).tests, q < pr.tol2 * n0) := by
  intro k
  induction k with
  | zero =>
      intro it2 st h hodd hle
      unfold bicgLoop
      rw [dif_neg (by omega)]
      left
      refine ⟨?_, by simp⟩
      show it2 = 2 * pr.maxit + 1
      omega
  | succ k ih =>
      intro it2 st h hodd hle
      by_cases hc : it2 < 2 * pr.maxit
      · unfold bicgLoop
        rw [dif_pos hc]
        by_cases h1 : (half1 pr it2 st).1.nrmSq < pr.tol2 * n0
        · rw [if_pos h1]
          right
          refine ⟨?_, h1, ⟨(half1 pr it2 st).1.nrmSq, by simp, h1⟩⟩
          show it2 ≤ 2 * pr.maxit
          omega
        · rw [if_neg h1]
          by_cases h2 : (half2 pr (half1 pr it2 st).1).1.nrmSq < pr.tol2 * n0
          · rw [if_pos h2]
            right
            refine ⟨?_, h2, ⟨(half2 pr (half1 pr it2 st).1).1.nrmSq, by simp, h2⟩⟩
            show it2 + 1 ≤ 2 * pr.maxit
            omega
          · rw [if_neg h2]
            rcases ih (it2 + 2) (half2 pr (half1 pr it2 st).1).1 (by omega)
                (by omega) (by omega) with ⟨ha, hb⟩ | ⟨ha, hb, q, hq, hql⟩
            · left
              refine ⟨ha, ?_⟩
              intro q hq
              simp only [List.mem_cons] at hq
              rcases hq with rfl | rfl | hq
              · exact h1
              · exact h2
              · exact hb q hq
            · right
              exact ⟨ha, hb, q, by simp [hq], hql⟩
      · unfold bicgLoop
        rw [dif_neg hc]
        left
        refine ⟨?_, by simp⟩
        show it2 = 2 * pr.maxit + 1
        omega

theorem loop_tests_nonneg (pr : Params) (n0 : ℚ) :
    ∀ (k it2 : ℕ) (st : BState), 2 * pr.maxit ≤ it2 + k →
    ∀ q ∈ (bicgLoop pr n0 it2 st).tests, 0 ≤ q := by
  intro k
  induction k with
  | zero =>
      intro it2 st h
      unfold bicgLoop
      rw [dif_neg (by omega)]
      simp
  | succ k ih =>
      intro it2 st h
      by_cases hc : it2 < 2 * pr.maxit
      · unfold bicgLoop
        rw [dif_pos hc]
        by_cases h1 : (half1 pr it2 st).1.nrmSq < pr.tol2 * n0
        · rw [if_pos h1]
          intro q hq
          simp only [List.mem_singleton] at hq
          rw [hq]
          exact half1_nrmSq_nonneg pr it2 st
        · rw [if_neg h1]
          by_cases h2 : (half2 pr (half1 pr it2 st).1).1.nrmSq < pr.tol2 * n0
          · rw [if_pos h2]
            intro q hq
            simp only [List.mem_cons, List.not_mem_nil, or_false] at hq
            rcases hq with rfl | rfl
            · exact half1_nrmSq_nonneg pr it2 st
            · exact half2_nrmSq_nonneg pr _
          · rw [if_neg h2]
            intro q hq
            simp only [List.mem_cons] at hq
            rcases hq with rfl | rfl | hq
            · exact half1_nrmSq_nonneg pr it2 st
            · exact half2_nrmSq_nonneg pr _
            · exact ih (it2 + 2) _ (by omega) q hq
      · unfold bicgLoop
        rw [dif_neg hc]
        simp

/-!  Ordering of spmv and well-contribution events in the trace.  -/

theorem stepOK_prologue (nw : ℕ) (tail : List Ev) :
    stepOK nw none (prologueEvs ++ tail) =
      stepOK nw (some (Ev.normE Buf.r)) tail := by
  simp [prologueEvs, stepOK, isWellAfterOK, isSpmvBeforeOK]

theorem stepOK_half1 (pr : Params) (it2 : ℕ) (st : BState) (tail : List Ev) :
    stepOK pr.numWells (some (Ev.normE Buf.r)) ((half1 pr it2 st).2 ++ tail) =
      stepOK pr.numWells (some (Ev.normE Buf.r)) tail := by
  by_cases h2 : 0 < pr.numWells
  · by_cases h1 : 2 < it2 <;>
      simp [half1, h1, h2, stepOK, isWellAfterOK, isSpmvBeforeOK]
  · have h0 : pr.numWells = 0 := Nat.eq_zero_of_not_pos h2
    by_cases h1 : 2 < it2 <;>
      simp [half1, h1, h2, h0, stepOK, isWellAfterOK, isSpmvBeforeOK]

theorem stepOK_half2 (pr : Params) (st : BState) (tail : List Ev) :
    stepOK pr.numWells (some (Ev.normE Buf.r)) ((half2 pr st).2 ++ tail) =
      stepOK pr.numWells (some (Ev.normE Buf.r)) tail := by
  by_cases h2 : 0 < pr.numWells
  · simp [half2, h2, stepOK, isWellAfterOK, isSpmvBeforeOK]
  · have h0 : pr.numWells = 0 := Nat.eq_zero_of_not_pos h2
    simp [half2, h2, h0, stepOK, isWellAfterOK, isSpmvBeforeOK]

theorem stepOK_loop (pr : Params) (n0 : ℚ) :
    ∀ (k it2 : ℕ) (st : BState), 2 * pr.maxit ≤ it2 + k →
    stepOK pr.numWells (some (Ev.normE Buf.r))
      (bicgLoop pr n0 it2 st).trace = true := by
  intro k
  induction k with
  | zero =>
      intro it2 st h
      unfold bicgLoop
      rw [dif_neg (by omega)]
      rfl
  | succ k ih =>
      intro it2 st h
      by_cases hc : it2 < 2 * pr.maxit
      · unfold bicgLoop
        rw [dif_pos hc]
        by_cases hA : (half1 pr it2 st).1.nrmSq < pr.tol2 * n0
        · rw [if_pos hA]
          show stepOK pr.numWells (some (Ev.normE Buf.r))
            (half1 pr it2 st).2 = true
          rw [← List.append_nil (half1 pr it2 st).2, stepOK_half1]
          rfl
        · rw [if_neg hA]
          by_cases hB : (half2 pr (half1 pr it2 st).1).1.nrmSq < pr.tol2 * n0
          · rw [if_pos hB]
            show stepOK pr.numWells (some (Ev.normE Buf.r))
              ((half1 pr it2 st).2 ++ (half2 pr (half1 pr it2 st).1).2) = true
            rw [stepOK_half1,
              ← List.append_nil (half2 pr (half1 pr it2 st).1).2, stepOK_half2]
            rfl
          · rw [if_neg hB]
            show stepOK pr.numWells (some (Ev.normE Buf.r))
              ((half1 pr it2 st).2 ++ (half2 pr (half1 pr it2 st).1).2 ++
                (bicgLoop pr n0 (it2 + 2) (half2 pr (half1 pr it2 st).1).1).trace)
              = true
            rw [List.append_assoc, stepOK_half1, stepOK_half2]
            exact ih (it2 + 2) _ (by omega)
      · unfold bicgLoop
        rw [dif_neg hc]
        rfl

theorem bufOK_half1 (pr : Params) (it2 : ℕ) (st : BState) :
    (half1 pr it2 st).2.all evBufOK = true := by
  by_cases h2 : 0 < pr.numWells <;> by_cases h1 : 2 < it2 <;>
    simp [half1, h1, h2, evBufOK]

theorem bufOK_half2 (pr : Params) (st : BState) :
    (half2 pr st).2.all evBufOK = true := by
  by_cases h2 : 0 < pr.numWells <;> simp [half2, h2, evBufOK]

theorem bufOK_loop (pr : Params) (n0 : ℚ) :
    ∀ (k it2 : ℕ) (st : BState), 2 * pr.maxit ≤ it2 + k →
    (bicgLoop pr n0 it2 st).trace.all evBufOK = true := by
  intro k
  induction k with
  | zero =>
      intro it2 st h
      unfold bicgLoop
      rw [dif_neg (by omega)]
      rfl
  | succ k ih =>
      intro it2 st h
      by_cases hc : it2 < 2 * pr.maxit
      · unfold bicgLoop
        rw [dif_pos hc]
        by_cases hA : (half1 pr it2 st).1.nrmSq < pr.tol2 * n0
        · rw [if_pos hA]
          show (half1 pr it2 st).2.all evBufOK = true
          exact bufOK_half1 pr it2 st
        · rw [if_neg hA]
          by_cases hB : (half2 pr (half1 pr it2 st).1).1.nrmSq < pr.tol2 * n0
          · rw [if_pos hB]
            show ((half1 pr it2 st).2 ++
              (half2 pr (half1 pr it2 st).1).2).all evBufOK = true
            rw [List.all_append, bufOK_half1, bufOK_half2]
            rfl
          · rw [if_neg hB]
            show ((half1 pr it2 st).2 ++ (half2 pr (half1 pr it2 st).1).2 ++
              (bicgLoop pr n0 (it2 + 2)
                (half2 pr (half1 pr it2 st).1).1).trace).all evBufOK = true
            rw [List.all_append, List.all_append, bufOK_half1, bufOK_half2,
              ih (it2 + 2) _ (by omega)]
            rfl
      · unfold bicgLoop
        rw [dif_neg hc]
        rfl

/-!  Projections of gpu_pbicgstab, as equations.  -/

theorem gpu_out_def (pr : Params) (x0 b : Vec) :
    (gpu_pbicgstab pr x0 b).out = bicgLoop pr (normSq b) 1 (bicgInit x0 b) := rfl

theorem gpu_converged_def (pr : Params) (x0 b : Vec) :
    (gpu_pbicgstab pr x0 b).res.converged =
      ((bicgLoop pr (normSq b) 1 (bicgInit x0 b)).it2 != 2 * pr.maxit + 1) := rfl

theorem gpu_iterations_def (pr : Params) (x0 b : Vec) :
    (gpu_pbicgstab pr x0 b).res.iterations2 =
      min (bicgLoop pr (normSq b) 1 (bicgInit x0 b)).it2 (2 * pr.maxit) := rfl

/-!  The claims.  -/

/-- C1: the solve loop gpu_pbicgstab implements the preconditioned
BiCGSTAB recurrence of the spec: per full iteration it computes
rho = dot(rw, r), recombines p = r + beta * (p - omega * v) with
beta = (rho/rho_prev) * (alpha/omega) only when the half-step counter
satisfies it > 1 (it2 > 2), applies the preconditioner to p, forms
v = A * pw plus well contributions, sets alpha = rho / dot(rw, v), updates
r -= alpha * v and x += alpha * pw, then in the second half-step applies
the preconditioner to r, forms t = A * s plus well contributions, sets
omega = dot(t, r) / dot(t, t), and updates x += omega * s and
r -= omega * t, counting iterations in increments of 0.5 (one unit of
it2 per half-step).  Formally: the loop embedded from the source agrees,
state for state and counter for counter, with the loop written from the
spec pseudocode. -/
theorem claim_C1_bicgstab_matches_spec_recurrence (pr : Params) (n0 : ℚ)
    (it2 : ℕ) (st : BState) (x0 b : Vec) :
    ((bicgLoop pr n0 it2 st).it2, (bicgLoop pr n0 it2 st).st) =
      specLoop pr n0 it2 st ∧
    ((gpu_pbicgstab pr x0 b).out.it2, (gpu_pbicgstab pr x0 b).out.st) =
      specPbicgstab pr x0 b := by
  constructor
  · exact loop_agree pr n0 (2 * pr.maxit) it2 st (by omega)
  · rw [gpu_out_def]
    exact loop_agree pr (normSq b) (2 * pr.maxit) 1 (bicgInit x0 b) (by omega)

/-- C1 witness: the agreement evaluated at a concrete configuration and
state. -/
theorem claim_C1_witness :
    ((bicgLoop ⟨fun w => w, fun w => w, fun w => w, 0, 1, 0⟩ 1 1
        ⟨[0], [1], [1], [1], [0], 1, 1, 1, 1⟩).it2,
      (bicgLoop ⟨fun w => w, fun w => w, fun w => w, 0, 1, 0⟩ 1 1
        ⟨[0], [1], [1], [1], [0], 1, 1, 1, 1⟩).st) =
      specLoop ⟨fun w => w, fun w => w, fun w => w, 0, 1, 0⟩ 1 1
        ⟨[0], [1], [1], [1], [0], 1, 1, 1, 1⟩ :=
  (claim_C1_bicgstab_matches_spec_recurrence
    ⟨fun w => w, fun w => w, fun w => w, 0, 1, 0⟩ 1 1
    ⟨[0], [1], [1], [1], [0], 1, 1, 1, 1⟩ [0] [1]).1

/-- C2: every solve starts from the zero initial guess: whenever
gpu_pbicgstab is reached, the x buffer it receives is the zero vector
(filled by copy_system_to_gpu or update_system_on_gpu), the b buffer is
the (possibly reordered) right-hand side, and the initial loop state takes
r = b with no A * x subtraction, with rw and p initialized as copies of r;
this holds for every invocation of solve_system, on any prior instance
state. -/
theorem claim_C2_zero_initial_guess (cfg : Cfg) (n : ℕ) (σ : SolverState)
    (b : Vec) (h : (solve_system cfg n σ b).gpuCalled = true) :
    (solve_system cfg n σ b).xAtGpu = some (zeroVec n) ∧
    (solve_system cfg n σ b).bAtGpu = some (update_system_rb cfg b) ∧
    (solve_system cfg n σ b).result =
      some (gpu_pbicgstab cfg.pr (zeroVec n) (update_system_rb cfg b)) ∧
    (bicgInit (zeroVec n) (update_system_rb cfg b)).x = zeroVec n ∧
    (bicgInit (zeroVec n) (update_system_rb cfg b)).r = update_system_rb cfg b ∧
    (bicgInit (zeroVec n) (update_system_rb cfg b)).rw = update_system_rb cfg b ∧
    (bicgInit (zeroVec n) (update_system_rb cfg b)).p = update_system_rb cfg b := by
  rcases σ with ⟨i, a, dx, db⟩
  rcases cfg with ⟨pr, ro, pa, aok, cok⟩
  cases i <;> cases a <;> cases aok <;> cases cok <;>
    simp_all [solve_system, solveTail, bicgInit]

/-- C2 witness: a concrete solve that reaches the iteration. -/
theorem claim_C2_witness :
    (solve_system ⟨⟨fun w => w, fun w => w, fun w => w, 0, 1, 0⟩, false,
        fun w => w, true, true⟩ 1 ⟨true, true, [5], [7]⟩ [3]).xAtGpu =
      some (zeroVec 1) :=
  (claim_C2_zero_initial_guess
    ⟨⟨fun w => w, fun w => w, fun w => w, 0, 1, 0⟩, false,
      fun w => w, true, true⟩ 1 ⟨true, true, [5], [7]⟩ [3] (by decide)).1

/-- C3: constructing the solver with linsolver = "cpr_trueimpes" fails
deterministically with the dedicated error, and the failure occurs before
any OpenCL platform enumeration, context creation or buffer allocation is
attempted (the OpenCL phase trace is empty); likewise any linsolver string
outside the four recognized ones is rejected, before any OpenCL phase,
with an error naming the offending value, while exactly "ilu0",
"cpr_quasiimpes" and "isai" are accepted by the dispatch. -/
theorem claim_C3_linsolver_dispatch (pq dq : ℕ) (env : ClEnv) (s : String)
    (h1 : s ≠ "ilu0") (h2 : s ≠ "cpr_quasiimpes") (h3 : s ≠ "isai")
    (h4 : s ≠ "cpr_trueimpes") :
    openclSolverBackendCtor "cpr_trueimpes" pq dq env =
      (Except.error CtorErr.cprTrueImpesUnsupported, []) ∧
    openclSolverBackendCtor s pq dq env =
      (Except.error (CtorErr.unknownLinsolver s), []) ∧
    selectPreconditioner "ilu0" = Except.ok PrecVariant.bilu0 ∧
    selectPreconditioner "cpr_quasiimpes" = Except.ok PrecVariant.cpr ∧
    selectPreconditioner "isai" = Except.ok PrecVariant.bisai := by
  refine ⟨?_, ?_, by simp [selectPreconditioner], by simp [selectPreconditioner],
    by simp [selectPreconditioner]⟩
  · simp [openclSolverBackendCtor, selectPreconditioner]
  · simp [openclSolverBackendCtor, selectPreconditioner, h1, h2, h3, h4]

/-- C3 witness: a concrete rejected string and the accepted values. -/
theorem claim_C3_witness :
    openclSolverBackendCtor "foo" 0 0 ⟨1, 1, none, fun _ => ""⟩ =
      (Except.error (CtorErr.unknownLinsolver "foo"), []) :=
  (claim_C3_linsolver_dispatch 0 0 ⟨1, 1, none, fun _ => ""⟩ "foo"
    (by decide) (by decide) (by decide) (by decide)).2.1

/-- C4: in every half-step, the well-contribution apply is issued
immediately after the spmv kernel, on the same input vector and
accumulating into the same output vector (pw/v in the first half-step,
s/t in the second), and never before an spmv; no other device operation is
issued between an spmv and its well apply.  Formally: the device-event
trace of gpu_pbicgstab passes the adjacency checker stepOK (every well
event is immediately preceded by the matching spmv event; when wells are
present, every spmv event is immediately followed by the matching well
event, including at the end of the trace), and all spmv/well events name
exactly the buffer pairs pw/v and s/t. -/
theorem claim_C4_spmv_well_ordering (pr : Params) (x0 b : Vec) :
    stepOK pr.numWells none (gpu_pbicgstab pr x0 b).trace = true ∧
    (gpu_pbicgstab pr x0 b).trace.all evBufOK = true := by
  constructor
  · show stepOK pr.numWells none
      (prologueEvs ++ (bicgLoop pr (normSq b) 1 (bicgInit x0 b)).trace) = true
    rw [stepOK_prologue]
    exact stepOK_loop pr (normSq b) (2 * pr.maxit) 1 (bicgInit x0 b) (by omega)
  · show (prologueEvs ++
      (bicgLoop pr (normSq b) 1 (bicgInit x0 b)).trace).all evBufOK = true
    rw [List.all_append, bufOK_loop pr (normSq b) (2 * pr.maxit) 1
      (bicgInit x0 b) (by omega)]
    rfl

/-- C4 witness: the checker evaluated on a concrete run. -/
theorem claim_C4_witness :
    stepOK 0 none
      (gpu_pbicgstab ⟨fun w => w, fun w => w, fun w => w, 0, 1, 0⟩
        [0] [1]).trace = true :=
  (claim_C4_spmv_well_ordering
    ⟨fun w => w, fun w => w, fun w => w, 0, 1, 0⟩ [0] [1]).1

/-- C5: the loop reports converged = true exactly when some half-step
residual-norm test passed before the half-step counter exhausted maxit
(the tested norms are recorded in order in the tests list); when it
converges, the final residual satisfies the test and the counter stayed
within 2 * maxit; otherwise the loop ran until the counter passed maxit
(raw counter 2 * maxit + 1) and the reported iteration count is capped at
2 * maxit; and exhausting maxit is a normal result variant: solve_system
still returns BDA_SOLVER_SUCCESS whenever analysis and preconditioner
setup succeed, independently of convergence. -/
theorem claim_C5_convergence_reporting (pr : Params) (x0 b : Vec)
    (cfg : Cfg) (n : ℕ) (σ : SolverState) (b2 : Vec) :
    ((gpu_pbicgstab pr x0 b).res.converged = true ↔
      ∃ q ∈ (gpu_pbicgstab pr x0 b).out.tests, q < pr.tol2 * normSq b) ∧
    ((gpu_pbicgstab pr x0 b).res.converged = true →
      (gpu_pbicgstab pr x0 b).out.st.nrmSq < pr.tol2 * normSq b ∧
      (gpu_pbicgstab pr x0 b).out.it2 ≤ 2 * pr.maxit) ∧
    ((gpu_pbicgstab pr x0 b).res.converged = false →
      (gpu_pbicgstab pr x0 b).out.it2 = 2 * pr.maxit + 1 ∧
      (gpu_pbicgstab pr x0 b).res.iterations2 = 2 * pr.maxit) ∧
    (gpu_pbicgstab pr x0 b).res.iterations2 ≤ 2 * pr.maxit ∧
    (σ.initialized = true → cfg.createOK = true →
      (solve_system cfg n σ b2).status = SolverStatus.success ∧
      (solve_system cfg n σ b2).gpuCalled = true) := by
  have hsolve : σ.initialized = true → cfg.createOK = true →
      (solve_system cfg n σ b2).status = SolverStatus.success ∧
      (solve_system cfg n σ b2).gpuCalled = true := by
    intro hi hk
    simp [solve_system, solveTail, hi, hk]
  rw [gpu_converged_def, gpu_iterations_def, gpu_out_def]
  have hc := loop_cases pr (normSq b) (2 * pr.maxit) 1 (bicgInit x0 b)
    (by omega) (by omega) (by omega)
  rcases hc with ⟨ha, hb⟩ | ⟨ha, hb2, q, hq, hql⟩
  · refine ⟨?_, ?_, ?_, Nat.min_le_right _ _, hsolve⟩
    · rw [ha]
      simp only [bne_self_eq_false, Bool.false_eq_true, false_iff]
      rintro ⟨q, hq, hql⟩
      exact hb q hq hql
    · intro hcv
      rw [ha] at hcv
      simp at hcv
    · intro _
      rw [ha]
      refine ⟨rfl, ?_⟩
      omega
  · have hne : (bicgLoop pr (normSq b) 1 (bicgInit x0 b)).it2 ≠
        2 * pr.maxit + 1 := by omega
    refine ⟨?_, ?_, ?_, Nat.min_le_right _ _, hsolve⟩
    · rw [bne_iff_ne]
      exact ⟨fun _ => ⟨q, hq, hql⟩, fun _ => hne⟩
    · intro _
      exact ⟨hb2, ha⟩
    · intro hcv
      exact absurd (by simpa using hcv) hne

/-- C5 witness: on an already-initialized instance with a successful
preconditioner build, solve_system reports success and runs the
iteration, independently of convergence. -/
theorem claim_C5_witness :
    (solve_system ⟨⟨fun w => w, fun w => w, fun w => w, 0, 1, 0⟩, false,
        fun w => w, true, true⟩ 1 ⟨true, true, [], []⟩ []).status =
      SolverStatus.success ∧
    (solve_system ⟨⟨fun w => w, fun w => w, fun w => w, 0, 1, 0⟩, false,
        fun w => w, true, true⟩ 1 ⟨true, true, [], []⟩ []).gpuCalled = true :=
  (claim_C5_convergence_reporting
    ⟨fun w => w, fun w => w, fun w => w, 0, 1, 0⟩ [0] [1]
    ⟨⟨fun w => w, fun w => w, fun w => w, 0, 1, 0⟩, false,
      fun w => w, true, true⟩ 1 ⟨true, true, [], []⟩ []).2.2.2.2 rfl rfl

/-- C6: when a reordering strategy is active, update_system permutes the
host right-hand side into reordered device layout using the fromOrder
pattern, and get_result un-permutes the device solution back using the
toOrder pattern; when reordering is none, both operations are identity
copies.  Since toOrder and fromOrder are inverse bijections, un-permuting
after permuting restores every vector, so the returned solution is always
in natural block order. -/
theorem claim_C6_reorder_roundtrip {Nb bs : ℕ}
    (toOrder fromOrder : Equiv.Perm (Fin Nb))
    (h : toOrder = fromOrder.symm) (b dx v : BlockVec Nb bs) :
    update_system_block false fromOrder b = b ∧
    get_result false toOrder dx = dx ∧
    get_result true toOrder (update_system_block true fromOrder v) = v := by
  refine ⟨rfl, rfl, ?_⟩
  funext j i
  simp [update_system_block, get_result, reorderBlockedVectorByPattern, h]

/-- C6 witness: the round trip evaluated on a concrete permutation and
block vector. -/
theorem claim_C6_witness :
    get_result true (Equiv.refl (Fin 1)).symm
      (update_system_block true (Equiv.refl (Fin 1))
        (fun _ _ => (3 : ℚ) : BlockVec 1 1)) = (fun _ _ => (3 : ℚ)) :=
  (claim_C6_reorder_roundtrip (Equiv.refl (Fin 1)).symm (Equiv.refl (Fin 1))
    rfl (fun _ _ => (3 : ℚ)) (fun _ _ => (3 : ℚ)) (fun _ _ => (3 : ℚ))).2.2

/-- C7: solve_system returns BDA_SOLVER_ANALYSIS_FAILED exactly when this
is the first call on a fresh instance and the matrix analysis fails, and
BDA_SOLVER_CREATE_PRECONDITIONER_FAILED exactly when the analysis stage
passed but the preconditioner build fails; in both failure cases
gpu_pbicgstab is never started; it returns BDA_SOLVER_SUCCESS in all
other cases (and then the iteration runs); and the analysis is attempted
exactly when the instance is uninitialized with no analysis done, so
subsequent calls only rebuild the preconditioner and re-upload values. -/
theorem claim_C7_solve_system_statuses (cfg : Cfg) (n : ℕ)
    (σ : SolverState) (b : Vec) :
    ((solve_system cfg n σ b).status = SolverStatus.analysisFailed ↔
      (σ.initialized = false ∧ σ.analysis_done = false ∧
        cfg.analyzeOK = false)) ∧
    ((solve_system cfg n σ b).status = SolverStatus.createPrecondFailed ↔
      (cfg.createOK = false ∧
        ¬(σ.initialized = false ∧ σ.analysis_done = false ∧
          cfg.analyzeOK = false))) ∧
    ((solve_system cfg n σ b).status = SolverStatus.success ↔
      (cfg.createOK = true ∧
        ¬(σ.initialized = false ∧ σ.analysis_done = false ∧
          cfg.analyzeOK = false))) ∧
    ((solve_system cfg n σ b).gpuCalled = true ↔
      (solve_system cfg n σ b).status = SolverStatus.success) ∧
    ((solve_system cfg n σ b).analyzeCalled = true ↔
      (σ.initialized = false ∧ σ.analysis_done = false)) := by
  rcases σ with ⟨i, a, dx, db⟩
  rcases cfg with ⟨pr, ro, pa, aok, cok⟩
  cases i <;> cases a <;> cases aok <;> cases cok <;>
    simp [solve_system, solveTail]

/-- C7 witness: a first call with failing analysis on a fresh instance. -/
theorem claim_C7_witness :
    (solve_system ⟨⟨fun w => w, fun w => w, fun w => w, 0, 1, 0⟩, false,
        fun w => w, false, true⟩ 1 ⟨false, false, [], []⟩ []).status =
      SolverStatus.analysisFailed :=
  (claim_C7_solve_system_statuses
    ⟨⟨fun w => w, fun w => w, fun w => w, 0, 1, 0⟩, false,
      fun w => w, false, true⟩ 1 ⟨false, false, [], []⟩ []).1.mpr
    ⟨rfl, rfl, rfl⟩

/-- C8: every failure at the device API boundary during construction is
fatal and surfaces as a structured error, never a silent default: the
constructor fails when no OpenCL platforms are found, when platformID is
not below the platform count, when no devices are found on the chosen
platform, when deviceID is not below the device count, and when an OpenCL
call raises cl::Error, which is rethrown carrying the error code and its
human-readable getErrorString rendering. -/
theorem claim_C8_device_boundary_errors (lins : String) (prT : PrecVariant)
    (p d : ℕ) (env : ClEnv)
    (hsel : selectPreconditioner lins = Except.ok prT) :
    (env.numPlatforms = 0 →
      (openclSolverBackendCtor lins p d env).1 =
        Except.error CtorErr.noPlatforms) ∧
    (0 < env.numPlatforms → env.numPlatforms ≤ p →
      (openclSolverBackendCtor lins p d env).1 =
        Except.error CtorErr.platformIdTooHigh) ∧
    (p < env.numPlatforms → env.numDevices = 0 →
      (openclSolverBackendCtor lins p d env).1 =
        Except.error CtorErr.noDevices) ∧
    (p < env.numPlatforms → 0 < env.numDevices → env.numDevices ≤ d →
      (openclSolverBackendCtor lins p d env).1 =
        Except.error CtorErr.deviceIdTooHigh) ∧
    (∀ c : Int, p < env.numPlatforms → d < env.numDevices →
      env.clThrow = some c →
      (openclSolverBackendCtor lins p d env).1 =
        Except.error (CtorErr.clError c (env.getErrorString c))) := by
  simp only [openclSolverBackendCtor, hsel]
  refine ⟨?_, ?_, ?_, ?_, ?_⟩
  · intro h1
    rw [if_pos h1]
  · intro h1 h2
    rw [if_neg (by omega), if_pos h2]
  · intro h1 h2
    rw [if_neg (by omega), if_neg (by omega), if_pos h2]
  · intro h1 h2 h3
    rw [if_neg (by omega), if_neg (by omega), if_neg (by omega), if_pos h3]
  · intro c h1 h2 h3
    rw [if_neg (by omega), if_neg (by omega), if_neg (by omega),
      if_neg (by omega), h3]

/-- C8 witness: an empty platform list at a concrete accepted
configuration. -/
theorem claim_C8_witness :
    (openclSolverBackendCtor "ilu0" 0 0 ⟨0, 0, none, fun _ => ""⟩).1 =
      Except.error CtorErr.noPlatforms :=
  (claim_C8_device_boundary_errors "ilu0" PrecVariant.bilu0 0 0
    ⟨0, 0, none, fun _ => ""⟩ (by simp [selectPreconditioner])).1 rfl

/-- C9: if the right-hand side b is the zero vector, so that the initial
residual norm is 0, the strict convergence test can never hold (every
tested squared norm is nonnegative while the threshold is 0), so the
solver runs all maxit half-step pairs (raw counter 2 * maxit + 1) and
reports converged = false with the iteration count capped at maxit, even
though x = 0 is the exact solution. -/
theorem claim_C9_zero_rhs_never_converges (pr : Params) (x0 : Vec) (n : ℕ) :
    (gpu_pbicgstab pr x0 (zeroVec n)).out.it2 = 2 * pr.maxit + 1 ∧
    (gpu_pbicgstab pr x0 (zeroVec n)).res.converged = false ∧
    (gpu_pbicgstab pr x0 (zeroVec n)).res.iterations2 = 2 * pr.maxit := by
  have hτ : pr.tol2 * normSq (zeroVec n) = 0 := by
    rw [normSq_zeroVec]
    ring
  have hc := loop_cases pr (normSq (zeroVec n)) (2 * pr.maxit) 1
    (bicgInit x0 (zeroVec n)) (by omega) (by omega) (by omega)
  have hnn := loop_tests_nonneg pr (normSq (zeroVec n)) (2 * pr.maxit) 1
    (bicgInit x0 (zeroVec n)) (by omega)
  rcases hc with ⟨ha, _⟩ | ⟨_, _, q, hq, hql⟩
  · rw [gpu_out_def, gpu_converged_def, gpu_iterations_def, ha]
    refine ⟨rfl, by simp, ?_⟩
    omega
  · exfalso
    have hge := hnn q hq
    rw [hτ] at hql
    linarith

/-- C9 witness: the zero right-hand side evaluated at a concrete
configuration. -/
theorem claim_C9_witness :
    (gpu_pbicgstab ⟨fun w => w, fun w => w, fun w => w, 0, 1, 0⟩ [5]
      (zeroVec 1)).res.converged = false :=
  (claim_C9_zero_rhs_never_converges
    ⟨fun w => w, fun w => w, fun w => w, 0, 1, 0⟩ [5] 1).2.1

/-- C10: a failed matrix analysis is not rolled back: the first call on a
fresh instance with failing analysis returns the analysis-failed status
yet leaves the instance with initialized = true and analysis_done = true;
consequently every subsequent call on the same instance skips the
analysis entirely and proceeds to build the preconditioner and, when that
build succeeds, runs the solve. -/
theorem claim_C10_failed_analysis_not_rolled_back (cfg : Cfg) (n : ℕ)
    (b b2 dx db : Vec) (h : cfg.analyzeOK = false) :
    (solve_system cfg n ⟨false, false, dx, db⟩ b).status =
      SolverStatus.analysisFailed ∧
    (solve_system cfg n ⟨false, false, dx, db⟩ b).final.initialized = true ∧
    (solve_system cfg n ⟨false, false, dx, db⟩ b).final.analysis_done = true ∧
    (solve_system cfg n
      (solve_system cfg n ⟨false, false, dx, db⟩ b).final b2).analyzeCalled
      = false ∧
    (cfg.createOK = true →
      (solve_system cfg n
        (solve_system cfg n ⟨false, false, dx, db⟩ b).final b2).status =
        SolverStatus.success ∧
      (solve_system cfg n
        (solve_system cfg n ⟨false, false, dx, db⟩ b).final b2).gpuCalled
        = true) := by
  rcases cfg with ⟨pr, ro, pa, aok, cok⟩
  cases aok
  · cases cok <;> simp [solve_system, solveTail]
  · simp at h

/-- C10 witness: the two consecutive calls at a concrete configuration. -/
theorem claim_C10_witness :
    (solve_system ⟨⟨fun w => w, fun w => w, fun w => w, 0, 1, 0⟩, false,
        fun w => w, false, true⟩ 1 ⟨false, false, [], []⟩ [2]).status =
      SolverStatus.analysisFailed :=
  (claim_C10_failed_analysis_not_rolled_back
    ⟨⟨fun w => w, fun w => w, fun w => w, 0, 1, 0⟩, false,
      fun w => w, false, true⟩ 1 [2] [2] [] [] rfl).1
